import Mathlib

/-!
Verification of the kiba key-value server (shallow embedding of the Rust
sources in src/).  The embedding covers:

* the integer-string helpers used by `StdStore::update_int`
  (`i64::from_str` and `i64::to_string`, modelled by `rustParseI64` and
  `intToString`),
* the data store `StdStore` from src/store.rs,
* the request executor `execute` from src/ksp.rs,
* the whitespace-splitting request builder from src/parser.rs,
* the quote-aware `Lexer` from src/lexer.rs, and
* one iteration of the per-client connection loop from src/server.rs.

Machine integers (`i64`) are modelled as `Int` together with the explicit
bounds `i64Min`/`i64Max`; overflowing operations are modelled exactly where
the source checks them (`checked_add`) or fails to check them (the unary
negation in `decrby`).
-/

namespace Kiba

/-! ## Models of the Rust std helpers used by the sources -/

/-- Lower bound of `i64`. -/
def i64Min : Int := -(2 ^ 63)

/-- Upper bound of `i64`. -/
def i64Max : Int := 2 ^ 63 - 1

/-- Model of `i64::checked_add`: the sum when it is representable in `i64`,
`none` on overflow. -/
def checkedAdd (a b : Int) : Option Int :=
  if i64Min ≤ a + b ∧ a + b ≤ i64Max then some (a + b) else none

/-- Model of the Rust unary negation `-d` on an `i64` operand: two's
complement wrapping (the release-profile behavior; the debug profile panics
on `d = i64::MIN`, and in neither profile does the negation report an
error). For every `d ≠ i64Min` in range this is the exact negation. -/
def wrapNeg (d : Int) : Int := ((-d + 2 ^ 63) % 2 ^ 64) - 2 ^ 63

/-- Decimal digits of a positive natural number, least significant first.
Fuel-based so that the definition computes by `rfl`; `natToDigitsRev` below
instantiates the fuel. -/
def natToDigitsRevFuel : Nat → Nat → List Nat
  | _, 0 => []
  | 0, _ + 1 => []
  | fuel + 1, n + 1 => ((n + 1) % 10) :: natToDigitsRevFuel fuel ((n + 1) / 10)

/-- Decimal digits, least significant first (empty for 0). -/
def natToDigitsRev (n : Nat) : List Nat := natToDigitsRevFuel n n

/-- Decimal digit to its ASCII character. -/
def digitToChar (d : Nat) : Char := Char.ofNat (48 + d)

/-- Model of the decimal representation of a natural number produced by the
Rust `to_string` (most significant digit first, a bare `0` for zero). -/
def natRepr (n : Nat) : List Char :=
  if n = 0 then ['0'] else ((natToDigitsRev n).reverse).map digitToChar

/-- Model of `i64::to_string`: minus sign followed by the decimal digits for
negative values, bare digits otherwise. -/
def intToString (i : Int) : String :=
  if i < 0 then ⟨'-' :: natRepr i.natAbs⟩ else ⟨natRepr i.toNat⟩

/-- Numeric value of an ASCII digit character, `none` for non-digits. -/
def charToDigit (c : Char) : Option Nat :=
  if 48 ≤ c.toNat ∧ c.toNat ≤ 57 then some (c.toNat - 48) else none

/-- Parse a non-empty all-digit character list as a natural number
(most significant digit first); `none` if empty or any non-digit occurs. -/
def parseDigits (cs : List Char) : Option Nat :=
  if cs.isEmpty then none
  else if cs.all (fun c => (charToDigit c).isSome) then
    some (cs.foldl (fun a c => 10 * a + (c.toNat - 48)) 0)
  else none

/-- Model of `str::parse::<i64>` (`i64::from_str`): an optional sign
followed by one or more decimal digits, rejecting values outside the `i64`
range. -/
def rustParseI64 (s : String) : Option Int :=
  match s.data with
  | [] => none
  | c :: rest =>
    if c = '-' then
      match parseDigits rest with
      | some n => if (n : Int) ≤ 2 ^ 63 then some (-(n : Int)) else none
      | none => none
    else
      match parseDigits (if c = '+' then rest else c :: rest) with
      | some n => if (n : Int) ≤ i64Max then some (n : Int) else none
      | none => none

/-! ## The data store (src/store.rs) -/

/-- Kind tag kept in the (never-consulted) namespace map of `StdStore`. -/
inductive DataType
  | StringType
  | ListType
  | HashType
  | SetType
deriving DecidableEq

/-- Error type returned by store operations. -/
structure OperationalError where
  message : String
deriving DecidableEq

/-- A Rust `HashMap<String, A>` modelled as a lookup function. -/
def StrMap (α : Type) : Type := String → Option α

/-- Model of `HashMap::insert` (as far as the mapping is concerned). -/
def StrMap.insert {α : Type} (m : StrMap α) (k : String) (v : α) : StrMap α :=
  fun q => if q = k then some v else m q

/-- The empty map. -/
def StrMap.empty {α : Type} : StrMap α := fun _ => none

/-- The store: a namespace tag map plus one map per value kind.  The Rust
`VecDeque<String>` is modelled as a list (front = head), and `HashSet<String>`
as a duplicate-free list whose length is the set cardinality. -/
structure StdStore where
  nspace : StrMap DataType
  strings : StrMap String
  lists : StrMap (List String)
  hashes : StrMap (StrMap String)
  sets : StrMap (List String)

/-- Result type of store operations, paired with the post-state of the
`&mut self` receiver (unchanged on the error path, exactly as in the
source, where an early `return Err(..)` leaves the store untouched). -/
def StoreResult (α : Type) : Type := Except OperationalError α × StdStore

/-- Model of `StdStore::new`. -/
def StdStore.new : StdStore :=
  { nspace := StrMap.empty
    strings := StrMap.empty
    lists := StrMap.empty
    hashes := StrMap.empty
    sets := StrMap.empty }

/-- Model of `StdStore::validate_type` (defined in the source but never
called by any operation). -/
def StdStore.validate_type (store : StdStore) (key : String) (expected : DataType) : Bool :=
  match store.nspace key with
  | none => true
  | some actual => actual = expected

/-- Model of `StdStore::update_int`: read `strings[key]`, parse it as an
`i64`, apply the delta with checked addition, and write back the decimal
representation of the sum. -/
def StdStore.update_int (store : StdStore) (key : String) (delta : Int) : StoreResult Int :=
  match store.strings key with
  | some val =>
    match rustParseI64 val with
    | some int =>
      match checkedAdd int delta with
      | some sum =>
        (Except.ok sum,
          { store with strings := store.strings.insert key (intToString sum) })
      | none =>
        (Except.error ⟨"Operation would cause integer to go out-of-bounds"⟩, store)
    | none =>
      (Except.error ⟨"Value stored at key cannot be represented as a 64-bit integer"⟩, store)
  | none => (Except.error ⟨"Specified key does not exist"⟩, store)

/-- Model of `StdStore::get`. -/
def StdStore.get (store : StdStore) (key : String) : Except OperationalError (Option String) :=
  match store.strings key with
  | some val => Except.ok (some val)
  | none => Except.ok none

/-- Model of `StdStore::set`: unconditional insert into `strings`,
returning the previous value. -/
def StdStore.set (store : StdStore) (key val : String) : StoreResult (Option String) :=
  (Except.ok (store.strings key),
    { store with strings := store.strings.insert key val })

/-- Model of `StdStore::incr`. -/
def StdStore.incr (store : StdStore) (key : String) : StoreResult Int :=
  store.update_int key 1

/-- Model of `StdStore::decr`. -/
def StdStore.decr (store : StdStore) (key : String) : StoreResult Int :=
  store.update_int key (-1)

/-- Model of `StdStore::incrby`. -/
def StdStore.incrby (store : StdStore) (key : String) (delta : Int) : StoreResult Int :=
  store.update_int key delta

/-- Model of `StdStore::decrby`: the source computes the Rust expression
`-delta` (unchecked machine negation, see `wrapNeg`) and delegates to
`update_int`. -/
def StdStore.decrby (store : StdStore) (key : String) (delta : Int) : StoreResult Int :=
  store.update_int key (wrapNeg delta)

/-- Model of `StdStore::lpush`: push at the front, auto-creating the list. -/
def StdStore.lpush (store : StdStore) (key val : String) : StoreResult Nat :=
  match store.lists key with
  | some list =>
    (Except.ok (val :: list).length,
      { store with lists := store.lists.insert key (val :: list) })
  | none =>
    (Except.ok 1, { store with lists := store.lists.insert key [val] })

/-- Model of `StdStore::rpush`: push at the back, auto-creating the list. -/
def StdStore.rpush (store : StdStore) (key val : String) : StoreResult Nat :=
  match store.lists key with
  | some list =>
    (Except.ok (list ++ [val]).length,
      { store with lists := store.lists.insert key (list ++ [val]) })
  | none =>
    (Except.ok 1, { store with lists := store.lists.insert key [val] })

/-- Model of `StdStore::lpop`. -/
def StdStore.lpop (store : StdStore) (key : String) : StoreResult (Option String) :=
  match store.lists key with
  | some list =>
    match list with
    | [] => (Except.ok none, { store with lists := store.lists.insert key [] })
    | x :: xs =>
      (Except.ok (some x), { store with lists := store.lists.insert key xs })
  | none => (Except.ok none, store)

/-- Model of `StdStore::rpop`. -/
def StdStore.rpop (store : StdStore) (key : String) : StoreResult (Option String) :=
  match store.lists key with
  | some list =>
    match list.getLast? with
    | none => (Except.ok none, { store with lists := store.lists.insert key [] })
    | some x =>
      (Except.ok (some x), { store with lists := store.lists.insert key list.dropLast })
  | none => (Except.ok none, store)

/-- Model of `StdStore::sadd`: `HashSet::insert` then length. -/
def StdStore.sadd (store : StdStore) (key val : String) : StoreResult Nat :=
  match store.sets key with
  | some s =>
    let s' := if val ∈ s then s else s ++ [val]
    (Except.ok s'.length, { store with sets := store.sets.insert key s' })
  | none =>
    (Except.ok 1, { store with sets := store.sets.insert key [val] })

/-- Model of `StdStore::srem`: `HashSet::remove` then length (the length
after the removal, not a removed count). -/
def StdStore.srem (store : StdStore) (key val : String) : StoreResult Nat :=
  match store.sets key with
  | some s =>
    let s' := s.erase val
    (Except.ok s'.length, { store with sets := store.sets.insert key s' })
  | none => (Except.ok 0, store)

/-- Model of `StdStore::sismember`. -/
def StdStore.sismember (store : StdStore) (key val : String) :
    Except OperationalError Bool :=
  match store.sets key with
  | some s => Except.ok (val ∈ s)
  | none => Except.ok false

/-- Model of `StdStore::smembers` (member enumeration in the model's
iteration order; a Rust `HashSet` iterates in an unspecified order). -/
def StdStore.smembers (store : StdStore) (key : String) :
    Except OperationalError (List String) :=
  match store.sets key with
  | some s => Except.ok s
  | none => Except.ok []

/-- Model of `StdStore::hget`. -/
def StdStore.hget (store : StdStore) (key field : String) :
    Except OperationalError (Option String) :=
  match store.hashes key with
  | some hash => Except.ok (hash field)
  | none => Except.ok none

/-- Model of `StdStore::hset`: insert into the hash, auto-creating it,
returning the previous value of the field. -/
def StdStore.hset (store : StdStore) (key field val : String) : StoreResult (Option String) :=
  match store.hashes key with
  | some hash =>
    (Except.ok (hash field),
      { store with hashes := store.hashes.insert key (hash.insert field val) })
  | none =>
    (Except.ok none,
      { store with hashes := store.hashes.insert key (StrMap.empty.insert field val) })

/-- Model of `StdStore::hdel`: remove the field, returning how many fields
were deleted (1 or 0). -/
def StdStore.hdel (store : StdStore) (key field : String) : StoreResult Nat :=
  match store.hashes key with
  | some hash =>
    match hash field with
    | some _ =>
      (Except.ok 1,
        { store with hashes := store.hashes.insert key (fun q => if q = field then none else hash q) })
    | none => (Except.ok 0, store)
  | none => (Except.ok 0, store)

/-! ## Requests, responses and the executor (src/ksp.rs) -/

/-- The request variants produced by the validator and consumed by the
executor.  The enum declared in src/ksp.rs has every variant below except
`Quit`; `Quit` is constructed by `validate_meta_op` (src/parser.rs) and
compared against by the connection loop (src/server.rs), both of which
take the request type from a `crate::executor` module that is not under
src/.  Modelled from the spec: the Request data model (spec §3) lists the
three meta-variants `NoOp`, `Quit` and `Invalid`, so `Quit` is included
here. -/
inductive Request
  | Ping
  | Get (key : String)
  | Set (key val : String)
  | Incr (key : String)
  | Decr (key : String)
  | IncrBy (key : String) (delta : Int)
  | DecrBy (key : String) (delta : Int)
  | LPush (key val : String)
  | RPush (key val : String)
  | LPop (key : String)
  | RPop (key : String)
  | SAdd (key val : String)
  | SRem (key val : String)
  | SIsMember (key val : String)
  | SMembers (key : String)
  | HGet (key field : String)
  | HSet (key field val : String)
  | HDel (key field : String)
  | NoOp
  | Quit
  | Invalid (error : String)
deriving DecidableEq

/-- The response: a formatted reply body. -/
structure Response where
  body : String
deriving DecidableEq

/-- Decimal representation of an unsigned value (Rust `format!` on `u64`). -/
def natToString (n : Nat) : String := ⟨natRepr n⟩

def f_pong : String := "PONG"

def f_ok : String := "OK"

def f_nil : String := "(nil)"

def f_noop : String := ⟨[Char.ofNat 0]⟩

def f_empty : String := "(empty list or set)"

def f_int (int : Int) : String := "(integer) " ++ intToString int

def f_uint (uint : Nat) : String := "(integer) " ++ natToString uint

def f_str (s : String) : String := "\"" ++ s ++ "\""

def f_vec (v : List String) : String :=
  String.join (v.enum.map (fun p => natToString (p.1 + 1) ++ ") " ++ p.2 ++ "\n"))

def f_err (e : String) : String := "(error) " ++ e

/-- Model of Rust `Result::unwrap`: `none` models the panic on `Err`. -/
def rustUnwrap {α : Type} (r : Except OperationalError α) : Option α :=
  match r with
  | Except.ok a => some a
  | Except.error _ => none

/-- Model of `execute` from src/ksp.rs.  Returns `none` exactly when the
source cannot produce a `Response`: when a Rust `.unwrap()` would panic,
and for `Quit`, which has no arm in the source match (the enum in ksp.rs
omits `Quit`, and the connection loop breaks on `Quit` before dispatching).
Otherwise the response together with the store left behind by the
operation. -/
def execute (req : Request) (store : StdStore) : Option (Response × StdStore) :=
  match req with
  | .Ping => some (⟨f_pong⟩, store)
  | .Get key =>
    match rustUnwrap (store.get key) with
    | some (some val) => some (⟨f_str val⟩, store)
    | some none => some (⟨f_nil⟩, store)
    | none => none
  | .Set key val =>
    let r := store.set key val
    some (⟨f_ok⟩, r.2)
  | .Incr key =>
    let r := store.incr key
    match r.1 with
    | Except.ok val => some (⟨f_int val⟩, r.2)
    | Except.error e => some (⟨f_err e.message⟩, r.2)
  | .Decr key =>
    let r := store.decr key
    match r.1 with
    | Except.ok val => some (⟨f_int val⟩, r.2)
    | Except.error e => some (⟨f_err e.message⟩, r.2)
  | .IncrBy key delta =>
    let r := store.incrby key delta
    match r.1 with
    | Except.ok val => some (⟨f_int val⟩, r.2)
    | Except.error e => some (⟨f_err e.message⟩, r.2)
  | .DecrBy key delta =>
    let r := store.decrby key delta
    match r.1 with
    | Except.ok val => some (⟨f_int val⟩, r.2)
    | Except.error e => some (⟨f_err e.message⟩, r.2)
  | .LPush key val =>
    let r := store.lpush key val
    match rustUnwrap r.1 with
    | some len => some (⟨f_uint len⟩, r.2)
    | none => none
  | .RPush key val =>
    let r := store.rpush key val
    match rustUnwrap r.1 with
    | some len => some (⟨f_uint len⟩, r.2)
    | none => none
  | .LPop key =>
    let r := store.lpop key
    match rustUnwrap r.1 with
    | some (some val) => some (⟨f_str val⟩, r.2)
    | some none => some (⟨f_nil⟩, r.2)
    | none => none
  | .RPop key =>
    let r := store.rpop key
    match rustUnwrap r.1 with
    | some (some val) => some (⟨f_str val⟩, r.2)
    | some none => some (⟨f_nil⟩, r.2)
    | none => none
  | .SAdd key val =>
    let r := store.sadd key val
    match rustUnwrap r.1 with
    | some len => some (⟨f_uint len⟩, r.2)
    | none => none
  | .SRem key val =>
    let r := store.srem key val
    match rustUnwrap r.1 with
    | some len => some (⟨f_uint len⟩, r.2)
    | none => none
  | .SIsMember key val =>
    match rustUnwrap (store.sismember key val) with
    | some true => some (⟨f_uint 1⟩, store)
    | some false => some (⟨f_uint 0⟩, store)
    | none => none
  | .SMembers key =>
    match rustUnwrap (store.smembers key) with
    | some members =>
      match members.length with
      | 0 => some (⟨f_empty⟩, store)
      | _ + 1 => some (⟨f_vec members⟩, store)
    | none => none
  | .HGet key field =>
    match rustUnwrap (store.hget key field) with
    | some (some val) => some (⟨f_str val⟩, store)
    | some none => some (⟨f_nil⟩, store)
    | none => none
  | .HSet key field val =>
    let r := store.hset key field val
    match rustUnwrap r.1 with
    | some (some _) => some (⟨f_uint 0⟩, r.2)
    | some none => some (⟨f_uint 1⟩, r.2)
    | none => none
  | .HDel key field =>
    let r := store.hdel key field
    match rustUnwrap r.1 with
    | some del => some (⟨f_uint del⟩, r.2)
    | none => none
  | .NoOp => some (⟨f_noop⟩, store)
  | .Quit => none
  | .Invalid error => some (⟨f_err error⟩, store)

/-! ## Operators (shared shape of src/parser.rs and src/lexer.rs) -/

inductive MetaOp
  | NoOp
  | Unrecognized
  | Quit
deriving DecidableEq

inductive MiscOp
  | Ping
deriving DecidableEq

inductive StringOp
  | Get
  | Set
  | Incr
  | Decr
  | IncrBy
  | DecrBy
deriving DecidableEq

inductive ListOp
  | LPush
  | RPush
  | LPop
  | RPop
deriving DecidableEq

inductive SetOp
  | SAdd
  | SRem
  | SIsMember
  | SMembers
deriving DecidableEq

inductive HashOp
  | HGet
  | HSet
  | HDel
deriving DecidableEq

inductive Operator
  | MetaOp (op : MetaOp)
  | MiscOp (op : MiscOp)
  | StringOp (op : StringOp)
  | ListOp (op : ListOp)
  | SetOp (op : SetOp)
  | HashOp (op : HashOp)
deriving DecidableEq

/-- Unicode White_Space code points: model of Rust `char::is_whitespace`. -/
def rustIsWhitespace (c : Char) : Bool :=
  ([9, 10, 11, 12, 13, 32, 0x85, 0xA0, 0x1680,
    0x2000, 0x2001, 0x2002, 0x2003, 0x2004, 0x2005, 0x2006, 0x2007,
    0x2008, 0x2009, 0x200A, 0x2028, 0x2029, 0x202F, 0x205F, 0x3000] : List Nat).contains c.toNat

/-- Model of ASCII uppercasing, the fragment of Rust `str::to_uppercase`
exercised by the keyword table (every keyword is plain ASCII). -/
def asciiUpper (c : Char) : Char :=
  if 97 ≤ c.toNat ∧ c.toNat ≤ 122 then Char.ofNat (c.toNat - 32) else c

def rustToUppercase (s : String) : String := ⟨s.data.map asciiUpper⟩

/-- The keyword table shared verbatim by `parse` (src/parser.rs) and
`Lexer::tokenize` (src/lexer.rs): uppercase the first token and match. -/
def opOfString (chunk : String) : Operator :=
  let u := rustToUppercase chunk
  if u = "PING" then .MiscOp .Ping
  else if u = "GET" then .StringOp .Get
  else if u = "SET" then .StringOp .Set
  else if u = "INCR" then .StringOp .Incr
  else if u = "DECR" then .StringOp .Decr
  else if u = "INCRBY" then .StringOp .IncrBy
  else if u = "DECRBY" then .StringOp .DecrBy
  else if u = "LPUSH" then .ListOp .LPush
  else if u = "RPUSH" then .ListOp .RPush
  else if u = "LPOP" then .ListOp .LPop
  else if u = "RPOP" then .ListOp .RPop
  else if u = "SADD" then .SetOp .SAdd
  else if u = "SREM" then .SetOp .SRem
  else if u = "SISMEMBER" then .SetOp .SIsMember
  else if u = "SMEMBERS" then .SetOp .SMembers
  else if u = "HGET" then .HashOp .HGet
  else if u = "HSET" then .HashOp .HSet
  else if u = "HDEL" then .HashOp .HDel
  else if u = "QUIT" then .MetaOp .Quit
  else .MetaOp .Unrecognized

/-! ## The request builder actually used by the server (src/parser.rs) -/

/-- The split predicate of `parse`: whitespace or NUL. -/
def isSplitChar (c : Char) : Bool := rustIsWhitespace c || c = Char.ofNat 0

/-- Split into maximal runs of non-split characters: model of
`text.split(pred).filter(non-empty)`. -/
def chunksAux : List Char → List Char → List String
  | [], acc => if acc.isEmpty then [] else [⟨acc.reverse⟩]
  | c :: cs, acc =>
    if isSplitChar c then
      if acc.isEmpty then chunksAux cs [] else ⟨acc.reverse⟩ :: chunksAux cs []
    else chunksAux cs (c :: acc)

def splitChunks (s : String) : List String := chunksAux s.data []

structure ParserResult where
  op : Operator
  argv : List String
deriving DecidableEq

/-- Model of `parse` (src/parser.rs): whitespace-split the text; the first
chunk picks the operator, the remaining chunks are argv.  (The quote-aware
`Lexer` below is NOT involved in this code path.) -/
def parse (text : String) : ParserResult :=
  match splitChunks text with
  | [] => ⟨.MetaOp .NoOp, []⟩
  | chunk :: rest => ⟨opOfString chunk, rest⟩

/-- Model of `invalid_argc_request`. -/
def invalid_argc_request (expected actual : Nat) : Request :=
  .Invalid ("Unexpected number of arguments. Expected " ++ natToString expected
    ++ ", got " ++ natToString actual)

/-- Model of `validate_misc_op`. -/
def validate_misc_op (op : MiscOp) (argv : List String) : Request :=
  let argc := argv.length
  match op with
  | .Ping => if argc ≠ 0 then invalid_argc_request 0 argc else .Ping

/-- Model of `validate_string_op`. -/
def validate_string_op (op : StringOp) (argv : List String) : Request :=
  let argc := argv.length
  match op with
  | .Get => if argc ≠ 1 then invalid_argc_request 1 argc else .Get (argv.getD 0 "")
  | .Set =>
    if argc ≠ 2 then invalid_argc_request 2 argc
    else .Set (argv.getD 0 "") (argv.getD 1 "")
  | .Incr => if argc ≠ 1 then invalid_argc_request 1 argc else .Incr (argv.getD 0 "")
  | .Decr => if argc ≠ 1 then invalid_argc_request 1 argc else .Decr (argv.getD 0 "")
  | .IncrBy =>
    if argc ≠ 2 then invalid_argc_request 2 argc
    else
      match rustParseI64 (argv.getD 1 "") with
      | some d => .IncrBy (argv.getD 0 "") d
      | none => .Invalid "Value to increment by is a non-integer"
  | .DecrBy =>
    if argc ≠ 2 then invalid_argc_request 2 argc
    else
      match rustParseI64 (argv.getD 1 "") with
      | some d => .DecrBy (argv.getD 0 "") d
      | none => .Invalid "Value to decrement by is a non-integer"

/-- Model of `validate_list_op`. -/
def validate_list_op (op : ListOp) (argv : List String) : Request :=
  let argc := argv.length
  match op with
  | .LPush =>
    if argc ≠ 2 then invalid_argc_request 2 argc
    else .LPush (argv.getD 0 "") (argv.getD 1 "")
  | .RPush =>
    if argc ≠ 2 then invalid_argc_request 2 argc
    else .RPush (argv.getD 0 "") (argv.getD 1 "")
  | .LPop => if argc ≠ 1 then invalid_argc_request 1 argc else .LPop (argv.getD 0 "")
  | .RPop => if argc ≠ 1 then invalid_argc_request 1 argc else .RPop (argv.getD 0 "")

/-- Model of `validate_set_op`. -/
def validate_set_op (op : SetOp) (argv : List String) : Request :=
  let argc := argv.length
  match op with
  | .SAdd =>
    if argc ≠ 2 then invalid_argc_request 2 argc
    else .SAdd (argv.getD 0 "") (argv.getD 1 "")
  | .SRem =>
    if argc ≠ 2 then invalid_argc_request 2 argc
    else .SRem (argv.getD 0 "") (argv.getD 1 "")
  | .SIsMember =>
    if argc ≠ 2 then invalid_argc_request 2 argc
    else .SIsMember (argv.getD 0 "") (argv.getD 1 "")
  | .SMembers => if argc ≠ 1 then invalid_argc_request 1 argc else .SMembers (argv.getD 0 "")

/-- Model of `validate_hash_op`. -/
def validate_hash_op (op : HashOp) (argv : List String) : Request :=
  let argc := argv.length
  match op with
  | .HGet =>
    if argc ≠ 2 then invalid_argc_request 2 argc
    else .HGet (argv.getD 0 "") (argv.getD 1 "")
  | .HSet =>
    if argc ≠ 3 then invalid_argc_request 3 argc
    else .HSet (argv.getD 0 "") (argv.getD 1 "") (argv.getD 2 "")
  | .HDel =>
    if argc ≠ 2 then invalid_argc_request 2 argc
    else .HDel (argv.getD 0 "") (argv.getD 1 "")

/-- Model of `validate_meta_op`: argv is ignored entirely (the source binds
it as an unused parameter). -/
def validate_meta_op (op : MetaOp) (_argv : List String) : Request :=
  match op with
  | .NoOp => .NoOp
  | .Quit => .Quit
  | .Unrecognized => .Invalid "Unrecognized operator"

/-- Model of `validate`. -/
def validate (result : ParserResult) : Request :=
  match result.op with
  | .MiscOp op => validate_misc_op op result.argv
  | .StringOp op => validate_string_op op result.argv
  | .ListOp op => validate_list_op op result.argv
  | .SetOp op => validate_set_op op result.argv
  | .HashOp op => validate_hash_op op result.argv
  | .MetaOp op => validate_meta_op op result.argv

/-- Model of `parse_request` on already-decoded text. -/
def parse_request (text : String) : Request := validate (parse text)

/-! ## UTF-8 (model of Rust std::str::from_utf8) -/

/-- A UTF-8 continuation byte. -/
def isContByte (b : Nat) : Bool := 0x80 ≤ b && b < 0xC0

/-- Standard UTF-8 decoding of a byte sequence, rejecting overlong forms,
surrogates and out-of-range code points exactly as `std::str::from_utf8`. -/
def utf8Decode? : List Nat → Option (List Char)
  | [] => some []
  | b :: bs =>
    if b < 0x80 then (utf8Decode? bs).map (fun cs => Char.ofNat b :: cs)
    else if b < 0xC0 then none
    else if b < 0xE0 then
      match bs with
      | b1 :: bs1 =>
        if isContByte b1 then
          let cp := (b - 0xC0) * 0x40 + (b1 - 0x80)
          if 0x80 ≤ cp then (utf8Decode? bs1).map (fun cs => Char.ofNat cp :: cs)
          else none
        else none
      | [] => none
    else if b < 0xF0 then
      match bs with
      | b1 :: b2 :: bs2 =>
        if isContByte b1 && isContByte b2 then
          let cp := (b - 0xE0) * 0x1000 + (b1 - 0x80) * 0x40 + (b2 - 0x80)
          if 0x800 ≤ cp ∧ ¬(0xD800 ≤ cp ∧ cp ≤ 0xDFFF) then
            (utf8Decode? bs2).map (fun cs => Char.ofNat cp :: cs)
          else none
        else none
      | _ => none
    else if b < 0xF8 then
      match bs with
      | b1 :: b2 :: b3 :: bs3 =>
        if isContByte b1 && isContByte b2 && isContByte b3 then
          let cp := (b - 0xF0) * 0x40000 + (b1 - 0x80) * 0x1000
            + (b2 - 0x80) * 0x40 + (b3 - 0x80)
          if 0x10000 ≤ cp ∧ cp ≤ 0x10FFFF then
            (utf8Decode? bs3).map (fun cs => Char.ofNat cp :: cs)
          else none
        else none
      | _ => none
    else none

/-- Model of `parse_request` from raw bytes: the source runs
`std::str::from_utf8(bytes).unwrap()`, so invalid UTF-8 panics (`none`). -/
def parseRequestBytes (bytes : List Nat) : Option Request :=
  (utf8Decode? bytes).map (fun cs => parse_request ⟨cs⟩)

/-! ## The quote-aware lexer (src/lexer.rs) -/

/-- Model of `Lexer::is_whitespace`. -/
def lexIsWhitespace (c : Char) : Bool :=
  rustIsWhitespace c || c = Char.ofNat 0 || c = '\n'

/-- Model of `Lexer::consume_whitespace`. -/
def consumeWhitespace (cs : List Char) : List Char := cs.dropWhile lexIsWhitespace

/-- Model of `Lexer::tokenize_quoted_string`: drop the opening quote, take
up to the next quote, and drop the closing quote when present. -/
def tokenizeQuotedString (cs : List Char) : String × List Char :=
  let cs1 := cs.drop 1
  let tok := cs1.takeWhile (fun c => c ≠ '"')
  let rest := cs1.dropWhile (fun c => c ≠ '"')
  (⟨tok⟩, rest.drop 1)

/-- Model of `Lexer::tokenize_string`. -/
def tokenizeString (cs : List Char) : String × List Char :=
  (⟨cs.takeWhile (fun c => !lexIsWhitespace c)⟩, cs.dropWhile (fun c => !lexIsWhitespace c))

/-- Model of `Lexer::next_token`. -/
def nextToken (cs : List Char) : Option (String × List Char) :=
  let cs1 := consumeWhitespace cs
  match cs1 with
  | [] => none
  | c :: _ => some (if c = '"' then tokenizeQuotedString cs1 else tokenizeString cs1)

/-- The argv-collecting loop of `Lexer::tokenize`.  Fuel-based so that the
definition computes by `rfl`; each token consumes at least one character, so
`length + 1` fuel (see `collectArgv`) always suffices. -/
def collectArgvFuel : Nat → List Char → List String
  | 0, _ => []
  | fuel + 1, cs =>
    match nextToken cs with
    | none => []
    | some (t, rest) => t :: collectArgvFuel fuel rest

def collectArgv (cs : List Char) : List String := collectArgvFuel (cs.length + 1) cs

/-- Result of `Lexer::tokenize`. -/
structure LexerResult where
  op : Operator
  argv : List String
deriving DecidableEq

/-- Model of `Lexer::tokenize`: the first token (if any) picks the operator
through the shared keyword table, the remaining tokens are argv. -/
def lexTokenize (text : String) : LexerResult :=
  match nextToken text.data with
  | none => ⟨.MetaOp .NoOp, []⟩
  | some (t, rest) => ⟨opOfString t, collectArgv rest⟩

/-- Outcome of the byte-level `tokenize` entry point of src/lexer.rs. -/
inductive TokenizeOutcome
  | processExit (code : Nat)
  | ok (result : LexerResult)
deriving DecidableEq

/-- Model of `tokenize` (src/lexer.rs, lines 189-199): on invalid UTF-8 it
logs an error and calls `std::process::exit(1)`. -/
def tokenizeBytes (bytes : List Nat) : TokenizeOutcome :=
  match utf8Decode? bytes with
  | some text => .ok (lexTokenize ⟨text⟩)
  | none => .processExit 1

/-! ## One iteration of the per-client loop (src/server.rs) -/

/-- Outcome of one socket read into the zero-initialised 512-byte buffer. -/
inductive ReadRes
  | bytes (data : List Nat)
  | eof
  | ioError
deriving DecidableEq

/-- Contents of `buf` after `let _ = client.socket.read(&mut buf[..])`:
the read result is discarded, so end-of-stream and I/O errors leave the
buffer all zeroes. -/
def bufferAfterRead : ReadRes → List Nat
  | .bytes data => data.take 512 ++ List.replicate (512 - data.length) 0
  | .eof => List.replicate 512 0
  | .ioError => List.replicate 512 0

/-- What the loop body does after parsing: break out of the loop (only on
`Quit`), send a message to the executor and continue, or panic (the
`unwrap` inside `parse_request`). -/
inductive IterOutcome
  | breakLoop
  | sendAndContinue (req : Request)
  | panicked
deriving DecidableEq

/-- Model of one iteration of the connection-handler loop in `start_server`
(src/server.rs, lines 79-105): parse the buffer, break on `Quit`, otherwise
send the request to the executor and loop.  The discarded read and write
results cannot end the loop. -/
def connIteration (r : ReadRes) : IterOutcome :=
  match parseRequestBytes (bufferAfterRead r) with
  | none => .panicked
  | some req => if req = Request.Quit then .breakLoop else .sendAndContinue req

/-! ## Roundtrip: parsing the decimal representation recovers the value -/

theorem natToDigitsRevFuel_fuel_irrel (f1 f2 n : Nat) (h1 : n ≤ f1) (h2 : n ≤ f2) :
    natToDigitsRevFuel f1 n = natToDigitsRevFuel f2 n := by
  induction f1 generalizing f2 n with
  | zero =>
    interval_cases n
    cases f2 <;> rfl
  | succ f ih =>
    cases n with
    | zero => cases f2 <;> rfl
    | succ m =>
      cases f2 with
      | zero => omega
      | succ f' =>
        simp only [natToDigitsRevFuel]
        congr 1
        exact ih _ _ (by omega) (by omega)

theorem natToDigitsRev_succ (n : Nat) :
    natToDigitsRev (n + 1) = ((n + 1) % 10) :: natToDigitsRev ((n + 1) / 10) := by
  have hlt : (n + 1) / 10 < n + 1 := Nat.div_lt_self (Nat.succ_pos n) (by decide)
  simp only [natToDigitsRev, natToDigitsRevFuel]
  congr 1
  exact natToDigitsRevFuel_fuel_irrel n ((n + 1) / 10) ((n + 1) / 10)
    (Nat.lt_succ_iff.mp hlt) le_rfl

theorem rustParseI64_cons (c : Char) (l : List Char) :
    rustParseI64 ⟨c :: l⟩ =
      if c = '-' then
        match parseDigits l with
        | some n => if (n : Int) ≤ 2 ^ 63 then some (-(n : Int)) else none
        | none => none
      else
        match parseDigits (if c = '+' then l else c :: l) with
        | some n => if (n : Int) ≤ i64Max then some (n : Int) else none
        | none => none := rfl

theorem natToDigitsRev_lt (n : Nat) : ∀ d ∈ natToDigitsRev n, d < 10 := by
  induction n using Nat.strong_induction_on with
  | _ n ih =>
    cases n with
    | zero => intro d hd; simp [natToDigitsRev, natToDigitsRevFuel] at hd
    | succ m =>
      intro d hd
      rw [natToDigitsRev_succ] at hd
      rcases List.mem_cons.mp hd with h | h
      · subst h; exact Nat.mod_lt _ (by decide)
      · exact ih ((m + 1) / 10) (Nat.div_lt_self (Nat.succ_pos m) (by decide)) d h

theorem foldr_natToDigitsRev (n : Nat) :
    (natToDigitsRev n).foldr (fun d a => 10 * a + d) 0 = n := by
  induction n using Nat.strong_induction_on with
  | _ n ih =>
    cases n with
    | zero => rfl
    | succ m =>
      rw [natToDigitsRev_succ]
      simp only [List.foldr_cons]
      rw [ih ((m + 1) / 10) (Nat.div_lt_self (Nat.succ_pos m) (by decide))]
      omega

theorem digitToChar_toNat {d : Nat} (h : d < 10) : (digitToChar d).toNat = 48 + d := by
  interval_cases d <;> rfl

theorem natRepr_digits (n : Nat) : ∀ c ∈ natRepr n, 48 ≤ c.toNat ∧ c.toNat ≤ 57 := by
  intro c hc
  simp only [natRepr] at hc
  split at hc
  · simp at hc; subst hc; exact ⟨by rfl, by decide⟩
  · rcases List.mem_map.mp hc with ⟨d, hd, hdc⟩
    have hlt : d < 10 := natToDigitsRev_lt n d (List.mem_reverse.mp hd)
    subst hdc
    rw [digitToChar_toNat hlt]
    omega

theorem natRepr_ne_nil (n : Nat) : natRepr n ≠ [] := by
  simp only [natRepr]
  split
  · simp
  · rename_i hn
    cases n with
    | zero => simp at hn
    | succ m =>
      rw [natToDigitsRev_succ]
      simp

theorem foldl_map_digitToChar (l : List Nat) (hl : ∀ d ∈ l, d < 10) (a : Nat) :
    (l.map digitToChar).foldl (fun a c => 10 * a + (c.toNat - 48)) a =
      l.foldl (fun a d => 10 * a + d) a := by
  induction l generalizing a with
  | nil => rfl
  | cons d t ih =>
    simp only [List.map_cons, List.foldl_cons]
    rw [digitToChar_toNat (hl d (List.mem_cons_self d t))]
    have : 48 + d - 48 = d := by omega
    rw [this]
    exact ih (fun d hd => hl d (List.mem_cons_of_mem _ hd)) _

theorem parseDigits_natRepr (n : Nat) : parseDigits (natRepr n) = some n := by
  have hdig : (natRepr n).all (fun c => (charToDigit c).isSome) = true := by
    rw [List.all_eq_true]
    intro c hc
    have := natRepr_digits n c hc
    simp [charToDigit, this.1, this.2]
  simp only [parseDigits, hdig, if_true]
  rw [if_neg (by simpa [List.isEmpty_iff] using natRepr_ne_nil n)]
  congr 1
  cases n with
  | zero => rfl
  | succ m =>
    simp only [natRepr, Nat.succ_ne_zero, if_false]
    rw [foldl_map_digitToChar _ (fun d hd => natToDigitsRev_lt _ d (List.mem_reverse.mp hd)),
      List.foldl_reverse]
    exact foldr_natToDigitsRev (m + 1)

theorem rustParseI64_intToString {i : Int} (h1 : i64Min ≤ i) (h2 : i ≤ i64Max) :
    rustParseI64 (intToString i) = some i := by
  have hpow : (2 : Int) ^ 63 = 9223372036854775808 := by norm_num
  simp only [i64Min, i64Max, hpow] at h1 h2
  by_cases hneg : i < 0
  · obtain ⟨c, rest, hcr⟩ : ∃ c rest, natRepr i.natAbs = c :: rest := by
      cases hh : natRepr i.natAbs with
      | nil => exact absurd hh (natRepr_ne_nil _)
      | cons c rest => exact ⟨c, rest, rfl⟩
    rw [intToString, if_pos hneg, hcr]
    rw [show ('-' :: c :: rest) = '-' :: (c :: rest) from rfl, rustParseI64_cons,
      if_pos rfl, ← hcr, parseDigits_natRepr]
    have hbound : (i.natAbs : Int) ≤ 2 ^ 63 := by rw [hpow]; omega
    show (if (i.natAbs : Int) ≤ 2 ^ 63 then some (-(i.natAbs : Int)) else none) = some i
    rw [if_pos hbound]
    congr 1
    omega
  · push_neg at hneg
    obtain ⟨c, rest, hcr⟩ : ∃ c rest, natRepr i.toNat = c :: rest := by
      cases hh : natRepr i.toNat with
      | nil => exact absurd hh (natRepr_ne_nil _)
      | cons c rest => exact ⟨c, rest, rfl⟩
    have hc : 48 ≤ c.toNat ∧ c.toNat ≤ 57 :=
      natRepr_digits i.toNat c (hcr ▸ List.mem_cons_self c rest)
    have hcm : c ≠ '-' := by
      intro hcontra; subst hcontra; exact absurd hc (by decide)
    have hcp : c ≠ '+' := by
      intro hcontra; subst hcontra; exact absurd hc (by decide)
    rw [intToString, if_neg (not_lt.mpr hneg), hcr, rustParseI64_cons,
      if_neg hcm, if_neg hcp, ← hcr, parseDigits_natRepr]
    have hbound : (i.toNat : Int) ≤ i64Max := by
      simp only [i64Max, hpow]; omega
    show (if (i.toNat : Int) ≤ i64Max then some ((i.toNat : Int)) else none) = some i
    rw [if_pos hbound]
    congr 1
    omega

/-! ## Map helper lemmas -/

theorem StrMap.insert_self {α : Type} (m : StrMap α) (k : String) (v : α) :
    (m.insert k v) k = some v := if_pos rfl

theorem StrMap.insert_ne {α : Type} (m : StrMap α) {q k : String} (v : α) (h : q ≠ k) :
    (m.insert k v) q = m q := if_neg h

/-! ## C1: composing two incrby calls -/

/-- C1: for every key K and deltas x, y, executing incrby(K,x) then
incrby(K,y) on a store whose strings entry for K holds decimal text parsing
to the i64 value i adds x + y to the stored value when neither checked
addition overflows; an overflowing step instead returns the error
"Operation would cause integer to go out-of-bounds" and leaves the store
(in particular strings[K]) unchanged. -/
theorem incrby_incrby_spec (store : StdStore) (K s : String) (x y i : Int)
    (hK : store.strings K = some s) (hs : rustParseI64 s = some i) :
    ((i64Min ≤ i + x ∧ i + x ≤ i64Max) → (i64Min ≤ i + x + y ∧ i + x + y ≤ i64Max) →
      ∃ st1 st2, store.incrby K x = (Except.ok (i + x), st1) ∧
        st1.incrby K y = (Except.ok (i + x + y), st2) ∧
        st2.strings K = some (intToString (i + (x + y)))) ∧
    (¬(i64Min ≤ i + x ∧ i + x ≤ i64Max) →
      store.incrby K x =
        (Except.error ⟨"Operation would cause integer to go out-of-bounds"⟩, store)) ∧
    ((i64Min ≤ i + x ∧ i + x ≤ i64Max) → ¬(i64Min ≤ i + x + y ∧ i + x + y ≤ i64Max) →
      ∃ st1, store.incrby K x = (Except.ok (i + x), st1) ∧
        st1.incrby K y =
          (Except.error ⟨"Operation would cause integer to go out-of-bounds"⟩, st1) ∧
        st1.strings K = some (intToString (i + x))) := by
  have hparse := hs
  refine ⟨?_, ?_, ?_⟩
  · intro h1 h2
    refine ⟨{ store with strings := store.strings.insert K (intToString (i + x)) },
      { store with strings :=
        (store.strings.insert K (intToString (i + x))).insert K (intToString (i + x + y)) },
      ?_, ?_, ?_⟩
    · simp only [StdStore.incrby, StdStore.update_int, hK, hparse, checkedAdd, if_pos h1]
    · simp only [StdStore.incrby, StdStore.update_int, StrMap.insert_self,
        rustParseI64_intToString h1.1 h1.2, checkedAdd, if_pos h2]
    · simp only [StrMap.insert_self]
      rw [add_assoc]
  · intro h1
    simp only [StdStore.incrby, StdStore.update_int, hK, hparse, checkedAdd, if_neg h1]
  · intro h1 h2
    refine ⟨{ store with strings := store.strings.insert K (intToString (i + x)) },
      ?_, ?_, ?_⟩
    · simp only [StdStore.incrby, StdStore.update_int, hK, hparse, checkedAdd, if_pos h1]
    · simp only [StdStore.incrby, StdStore.update_int, StrMap.insert_self,
        rustParseI64_intToString h1.1 h1.2, checkedAdd, if_neg h2]
    · simp only [StrMap.insert_self]

/-- Witness for C1 at a concrete input: start from strings["k"] = "5",
incrby 1 then incrby 2 produces 8. -/
theorem incrby_incrby_spec_witness :
    ∃ st1 st2,
      (StdStore.new.set "k" (intToString 5)).2.incrby "k" 1 = (Except.ok 6, st1) ∧
      st1.incrby "k" 2 = (Except.ok 8, st2) ∧
      st2.strings "k" = some (intToString 8) := by
  have h :=
    (incrby_incrby_spec (StdStore.new.set "k" (intToString 5)).2 "k" (intToString 5) 1 2 5
      rfl rfl).1 (by constructor <;> decide) (by constructor <;> decide)
  norm_num at h
  obtain ⟨st1, h1, st2, h2, h3⟩ := h
  exact ⟨st1, st2, h1, h2, h3⟩

/-! ## C2: decrby and the negation of i64::MIN -/

/-- C2: evaluating the code at the failing input.  On a store where
strings["k"] holds "0", `decrby("k", i64::MIN)` does NOT return the
out-of-bounds error: the unchecked Rust negation `-delta` wraps i64::MIN to
itself (in the release profile; the debug profile panics), so the call
returns Ok(i64::MIN) and overwrites the key, where the claim demands the
error "Operation would cause integer to go out-of-bounds" and an unchanged
key.  (For every delta other than i64::MIN the negation is exact and
decrby(k,d) = incrby(k,-d) does hold, see `wrapNeg` and the definitions of
`StdStore.decrby` / `StdStore.incrby`.) -/
theorem decrby_i64Min_wraps_not_error :
    ((StdStore.new.set "k" "0").2.decrby "k" i64Min).1 = Except.ok i64Min ∧
    ((StdStore.new.set "k" "0").2.decrby "k" i64Min).2.strings "k" =
      some (intToString i64Min) ∧
    ∀ e : OperationalError, ((StdStore.new.set "k" "0").2.decrby "k" i64Min).1 ≠
      Except.error e :=
  ⟨rfl, rfl, fun _ h => Except.noConfusion h⟩

/-! ## C3: the single-type-per-key invariant is not enforced -/

/-- C3: evaluating the code at the failing input.  From the empty store,
`set("k","v")` then `lpush("k","x")` both succeed: lpush returns Ok(1)
instead of a type-mismatch error, and afterwards the key "k" is present in
both the strings mapping and the lists mapping, violating the claimed
invariant (the source's `validate_type` helper is never called). -/
theorem set_then_lpush_no_type_error :
    ((StdStore.new.set "k" "v").2.lpush "k" "x").1 = Except.ok 1 ∧
    ((StdStore.new.set "k" "v").2.lpush "k" "x").2.strings "k" = some "v" ∧
    ((StdStore.new.set "k" "v").2.lpush "k" "x").2.lists "k" = some ["x"] ∧
    ∀ e : OperationalError, ((StdStore.new.set "k" "v").2.lpush "k" "x").1 ≠
      Except.error e :=
  ⟨rfl, rfl, rfl, fun _ h => Except.noConfusion h⟩

/-! ## C7: the connection loop ignores end-of-stream and write failures -/

set_option maxRecDepth 40000 in
/-- C7: evaluating the code at the failing input.  When the socket read
reports end-of-stream (zero bytes read) or an I/O error, the loop body in
`start_server` discards the read result, parses the still-zeroed buffer to
`NoOp`, and sends that `NoOp` message to the executor and continues — it
does not break out of the loop as the claim states (the only break is on a
parsed `Quit`). -/
theorem conn_loop_continues_on_eof :
    connIteration ReadRes.eof = IterOutcome.sendAndContinue Request.NoOp ∧
    connIteration ReadRes.ioError = IterOutcome.sendAndContinue Request.NoOp ∧
    connIteration ReadRes.eof ≠ IterOutcome.breakLoop ∧
    connIteration (ReadRes.bytes [81, 85, 73, 84]) = IterOutcome.breakLoop :=
  ⟨rfl, rfl, fun h => IterOutcome.noConfusion h, rfl⟩

/-! ## C8: srem returns the post-removal cardinality -/

/-- C8: srem(K,V) returns 0 when no set exists at K (leaving the store
unchanged); otherwise it removes V if present and returns the cardinality
of the set after the removal: removing the sole member returns 0, removing
a non-member of the set returns the unchanged cardinality. -/
theorem srem_spec (store : StdStore) (K V : String) :
    (store.sets K = none → store.srem K V = (Except.ok 0, store)) ∧
    (∀ s, store.sets K = some s →
      store.srem K V =
        (Except.ok (s.erase V).length,
          { store with sets := store.sets.insert K (s.erase V) }) ∧
      (s = [V] → (store.srem K V).1 = Except.ok 0) ∧
      (V ∉ s → (store.srem K V).1 = Except.ok s.length)) := by
  refine ⟨?_, ?_⟩
  · intro h
    simp only [StdStore.srem, h]
  · intro s hs
    refine ⟨?_, ?_, ?_⟩
    · simp only [StdStore.srem, hs]
    · intro hV
      subst hV
      simp [StdStore.srem, hs, List.erase]
    · intro hV
      simp only [StdStore.srem, hs, List.erase_of_not_mem hV]

/-- Witness for C8: srem on a missing set returns 0; removing the sole
member of a one-element set returns 0; removing a non-member of a
one-element set returns 1. -/
theorem srem_spec_witness :
    StdStore.new.srem "s" "a" = (Except.ok 0, StdStore.new) ∧
    (((StdStore.new.sadd "s" "a").2.srem "s" "a").1 = Except.ok 0) ∧
    (((StdStore.new.sadd "s" "a").2.srem "s" "z").1 = Except.ok 1) := by
  refine ⟨(srem_spec StdStore.new "s" "a").1 rfl, ?_, ?_⟩
  · exact (((srem_spec (StdStore.new.sadd "s" "a").2 "s" "a").2 ["a"] rfl).2.1) rfl
  · exact (((srem_spec (StdStore.new.sadd "s" "a").2 "s" "z").2 ["a"] rfl).2.2) (by decide)

/-! ## C10: set touches only the strings entry of its key -/

/-- C10: StdStore::set(K,V) always succeeds (returns Ok with the previous
value) — even when K currently holds a list, set or hash — and modifies
only the strings mapping at K: every other strings entry and the lists,
sets, hashes and namespace mappings are unchanged. -/
theorem set_frame (store : StdStore) (K V : String) :
    store.set K V =
      (Except.ok (store.strings K),
        { store with strings := store.strings.insert K V }) ∧
    (store.set K V).2.strings K = some V ∧
    (∀ q, q ≠ K → (store.set K V).2.strings q = store.strings q) ∧
    (store.set K V).2.lists = store.lists ∧
    (store.set K V).2.sets = store.sets ∧
    (store.set K V).2.hashes = store.hashes ∧
    (store.set K V).2.nspace = store.nspace := by
  refine ⟨rfl, StrMap.insert_self _ _ _, ?_, rfl, rfl, rfl, rfl⟩
  intro q hq
  exact StrMap.insert_ne _ _ hq

/-- Witness for C10: setting "k" while "k" holds a list succeeds, and the
strings entry of another key is untouched. -/
theorem set_frame_witness :
    ((StdStore.new.lpush "k" "x").2.set "k" "v").1 = Except.ok none ∧
    ((StdStore.new.lpush "k" "x").2.set "k" "v").2.strings "other" =
      (StdStore.new.lpush "k" "x").2.strings "other" ∧
    ((StdStore.new.lpush "k" "x").2.set "k" "v").2.lists =
      (StdStore.new.lpush "k" "x").2.lists := by
  have h := set_frame (StdStore.new.lpush "k" "x").2 "k" "v"
  refine ⟨?_, h.2.2.1 "other" (by decide), h.2.2.2.1⟩
  rw [h.1]
  rfl

/-! ## C4: quoted tokens in the lexer versus the server's request builder -/

theorem takeWhile_ne_quote (ws rest : List Char) (h : ∀ c ∈ ws, c ≠ '"') :
    (ws ++ '"' :: rest).takeWhile (fun c => c ≠ '"') = ws := by
  induction ws with
  | nil => simp [List.takeWhile_cons]
  | cons a t ih =>
    have ha : a ≠ '"' := h a (List.mem_cons_self a t)
    simp only [List.cons_append, List.takeWhile_cons, decide_eq_true ha, if_pos]
    rw [ih (fun c hc => h c (List.mem_cons_of_mem _ hc))]

theorem dropWhile_ne_quote (ws rest : List Char) (h : ∀ c ∈ ws, c ≠ '"') :
    (ws ++ '"' :: rest).dropWhile (fun c => c ≠ '"') = '"' :: rest := by
  induction ws with
  | nil => simp [List.dropWhile_cons]
  | cons a t ih =>
    have ha : a ≠ '"' := h a (List.mem_cons_self a t)
    simp only [List.cons_append, List.dropWhile_cons, decide_eq_true ha, if_pos]
    exact ih (fun c hc => h c (List.mem_cons_of_mem _ hc))

/-- C4 (amended): the quote-aware `Lexer` of src/lexer.rs does emit a
double-quoted substring, without the quote characters, as one argument even
when it contains whitespace — `Lexer::tokenize` on `SET k "a b"` yields
argv = ["k", "a b"] — but the whitespace-splitting `parse` of
src/parser.rs, the function the server actually uses to build requests,
splits the same line into three argument tokens, so `parse_request` yields
the arity error instead of a two-argument Set request. -/
theorem lexer_quoted_vs_parse (ws rest : List Char) (h : ∀ c ∈ ws, c ≠ '"') :
    nextToken ('"' :: (ws ++ '"' :: rest)) = some (⟨ws⟩, rest) ∧
    lexTokenize "SET k \"a b\"" = ⟨Operator.StringOp StringOp.Set, ["k", "a b"]⟩ ∧
    parse_request "SET k \"a b\"" =
      Request.Invalid "Unexpected number of arguments. Expected 2, got 3" := by
  refine ⟨?_, rfl, rfl⟩
  have hq : lexIsWhitespace '"' = false := rfl
  simp only [nextToken, consumeWhitespace, List.dropWhile_cons, hq, Bool.false_eq_true,
    if_false, if_pos rfl]
  simp only [tokenizeQuotedString, List.drop_one, List.tail_cons,
    takeWhile_ne_quote ws rest h, dropWhile_ne_quote ws rest h]
  rw [if_pos trivial]

/-- Witness for C4: the quoted-token property of the lexer at the concrete
token body "a b". -/
theorem lexer_quoted_vs_parse_witness :
    nextToken ('"' :: (['a', ' ', 'b'] ++ '"' :: [])) = some (⟨['a', ' ', 'b']⟩, []) :=
  (lexer_quoted_vs_parse ['a', ' ', 'b'] [] (by decide)).1

/-- C4 (counterexample): parsing `SET k "a b"` through the code path the
server uses does NOT yield the two-argument Set request the claim
describes; it whitespace-splits into three argv tokens and reports an
arity error. -/
theorem parse_quoted_not_single_arg :
    parse_request "SET k \"a b\"" ≠ Request.Set "k" "a b" ∧
    parse_request "SET k \"a b\"" =
      Request.Invalid "Unexpected number of arguments. Expected 2, got 3" :=
  ⟨by decide, rfl⟩

/-! ## C5: non-UTF-8 input exits the whole process -/

/-- C5 (amended): `tokenize` (src/lexer.rs) accepts any valid-UTF-8 byte
stream and lexes its decoding, but on non-UTF-8 bytes it logs an error and
calls `std::process::exit(1)`: the entire server process terminates, not
only the offending client's connection. -/
theorem tokenize_utf8_behavior :
    (∀ bytes text, utf8Decode? bytes = some text →
      tokenizeBytes bytes = TokenizeOutcome.ok (lexTokenize ⟨text⟩)) ∧
    tokenizeBytes [255] = TokenizeOutcome.processExit 1 := by
  refine ⟨?_, rfl⟩
  intro bytes text h
  simp [tokenizeBytes, h]

/-- Witness for C5: the byte string "Hi" is valid UTF-8 and is lexed. -/
theorem tokenize_utf8_behavior_witness :
    tokenizeBytes [72, 105] = TokenizeOutcome.ok (lexTokenize ⟨['H', 'i']⟩) :=
  tokenize_utf8_behavior.1 [72, 105] ['H', 'i'] rfl

/-- C5 (counterexample): on the non-UTF-8 input [0xFF] the lexer boundary
does not produce any connection-scoped outcome: the model of `tokenize`
reaches `std::process::exit(1)`, so the server process does not continue. -/
theorem tokenize_invalid_utf8_exits_process :
    tokenizeBytes [255] = TokenizeOutcome.processExit 1 ∧
    ∀ r, tokenizeBytes [255] ≠ TokenizeOutcome.ok r :=
  ⟨rfl, fun _ h => TokenizeOutcome.noConfusion h⟩

/-! ## C6: arity checking of every operator -/

/-- C6 (amended): for every recognized operator that is arity-checked —
PING and all data operators, with declared operand counts 0 for PING, 1 for
GET/INCR/DECR/LPOP/RPOP/SMEMBERS, 2 for SET/LPUSH/RPUSH/SADD/SREM/
SISMEMBER/HGET/HDEL/INCRBY/DECRBY, 3 for HSET — an argv of length M
different from the declared count N yields exactly
Invalid "Unexpected number of arguments. Expected N, got M".  QUIT is the
exception: `validate_meta_op` ignores argv entirely and always yields Quit,
so QUIT with arguments is not an arity error. -/
theorem arity_mismatch (argv : List String) :
    (argv.length ≠ 0 → validate_misc_op MiscOp.Ping argv = invalid_argc_request 0 argv.length) ∧
    (argv.length ≠ 1 → validate_string_op StringOp.Get argv = invalid_argc_request 1 argv.length) ∧
    (argv.length ≠ 1 → validate_string_op StringOp.Incr argv = invalid_argc_request 1 argv.length) ∧
    (argv.length ≠ 1 → validate_string_op StringOp.Decr argv = invalid_argc_request 1 argv.length) ∧
    (argv.length ≠ 1 → validate_list_op ListOp.LPop argv = invalid_argc_request 1 argv.length) ∧
    (argv.length ≠ 1 → validate_list_op ListOp.RPop argv = invalid_argc_request 1 argv.length) ∧
    (argv.length ≠ 1 → validate_set_op SetOp.SMembers argv = invalid_argc_request 1 argv.length) ∧
    (argv.length ≠ 2 → validate_string_op StringOp.Set argv = invalid_argc_request 2 argv.length) ∧
    (argv.length ≠ 2 → validate_string_op StringOp.IncrBy argv = invalid_argc_request 2 argv.length) ∧
    (argv.length ≠ 2 → validate_string_op StringOp.DecrBy argv = invalid_argc_request 2 argv.length) ∧
    (argv.length ≠ 2 → validate_list_op ListOp.LPush argv = invalid_argc_request 2 argv.length) ∧
    (argv.length ≠ 2 → validate_list_op ListOp.RPush argv = invalid_argc_request 2 argv.length) ∧
    (argv.length ≠ 2 → validate_set_op SetOp.SAdd argv = invalid_argc_request 2 argv.length) ∧
    (argv.length ≠ 2 → validate_set_op SetOp.SRem argv = invalid_argc_request 2 argv.length) ∧
    (argv.length ≠ 2 → validate_set_op SetOp.SIsMember argv = invalid_argc_request 2 argv.length) ∧
    (argv.length ≠ 2 → validate_hash_op HashOp.HGet argv = invalid_argc_request 2 argv.length) ∧
    (argv.length ≠ 2 → validate_hash_op HashOp.HDel argv = invalid_argc_request 2 argv.length) ∧
    (argv.length ≠ 3 → validate_hash_op HashOp.HSet argv = invalid_argc_request 3 argv.length) ∧
    (∀ N M : Nat, invalid_argc_request N M =
      Request.Invalid ("Unexpected number of arguments. Expected " ++ natToString N
        ++ ", got " ++ natToString M)) ∧
    validate_meta_op MetaOp.Quit argv = Request.Quit :=
  ⟨fun h => by simp [validate_misc_op, h],
   fun h => by simp [validate_string_op, h],
   fun h => by simp [validate_string_op, h],
   fun h => by simp [validate_string_op, h],
   fun h => by simp [validate_list_op, h],
   fun h => by simp [validate_list_op, h],
   fun h => by simp [validate_set_op, h],
   fun h => by simp [validate_string_op, h],
   fun h => by simp [validate_string_op, h],
   fun h => by simp [validate_string_op, h],
   fun h => by simp [validate_list_op, h],
   fun h => by simp [validate_list_op, h],
   fun h => by simp [validate_set_op, h],
   fun h => by simp [validate_set_op, h],
   fun h => by simp [validate_set_op, h],
   fun h => by simp [validate_hash_op, h],
   fun h => by simp [validate_hash_op, h],
   fun h => by simp [validate_hash_op, h],
   fun _ _ => rfl,
   rfl⟩

/-- Witness for C6 at argv of length 4, which mismatches every declared
count. -/
theorem arity_mismatch_witness :
    validate_misc_op MiscOp.Ping ["a", "b", "c", "d"] = invalid_argc_request 0 4 ∧
    validate_string_op StringOp.Get ["a", "b", "c", "d"] = invalid_argc_request 1 4 ∧
    validate_hash_op HashOp.HSet ["a", "b", "c", "d"] = invalid_argc_request 3 4 ∧
    validate_meta_op MetaOp.Quit ["a", "b", "c", "d"] = Request.Quit := by
  have h := arity_mismatch ["a", "b", "c", "d"]
  exact ⟨h.1 (by decide), h.2.1 (by decide),
    h.2.2.2.2.2.2.2.2.2.2.2.2.2.2.2.2.2.1 (by decide),
    h.2.2.2.2.2.2.2.2.2.2.2.2.2.2.2.2.2.2.2⟩

/-- C6 (counterexample): QUIT with an extra argument does not yield the
arity-error Invalid request the claim demands; it parses to Quit. -/
theorem quit_ignores_arity :
    parse_request "QUIT extra" = Request.Quit ∧
    parse_request "QUIT extra" ≠
      Request.Invalid "Unexpected number of arguments. Expected 0, got 1" :=
  ⟨rfl, by decide⟩

/-! ## C9: the executor never panics on the requests it handles -/

theorem get_fst_ok (store : StdStore) (k : String) : ∃ o, store.get k = Except.ok o := by
  unfold StdStore.get
  cases store.strings k <;> exact ⟨_, rfl⟩

theorem lpush_fst_ok (store : StdStore) (k v : String) :
    ∃ n, (store.lpush k v).1 = Except.ok n := by
  unfold StdStore.lpush
  cases store.lists k <;> exact ⟨_, rfl⟩

theorem rpush_fst_ok (store : StdStore) (k v : String) :
    ∃ n, (store.rpush k v).1 = Except.ok n := by
  unfold StdStore.rpush
  cases store.lists k <;> exact ⟨_, rfl⟩

theorem lpop_fst_ok (store : StdStore) (k : String) :
    ∃ o, (store.lpop k).1 = Except.ok o := by
  unfold StdStore.lpop
  cases store.lists k with
  | none => exact ⟨_, rfl⟩
  | some l => cases l <;> exact ⟨_, rfl⟩

theorem rpop_fst_ok (store : StdStore) (k : String) :
    ∃ o, (store.rpop k).1 = Except.ok o := by
  unfold StdStore.rpop
  cases store.lists k with
  | none => exact ⟨_, rfl⟩
  | some l =>
    cases hl : l.getLast? <;> simp only [hl] <;> exact ⟨_, rfl⟩

theorem sadd_fst_ok (store : StdStore) (k v : String) :
    ∃ n, (store.sadd k v).1 = Except.ok n := by
  unfold StdStore.sadd
  cases store.sets k <;> exact ⟨_, rfl⟩

theorem srem_fst_ok (store : StdStore) (k v : String) :
    ∃ n, (store.srem k v).1 = Except.ok n := by
  unfold StdStore.srem
  cases store.sets k <;> exact ⟨_, rfl⟩

theorem sismember_ok (store : StdStore) (k v : String) :
    ∃ b, store.sismember k v = Except.ok b := by
  unfold StdStore.sismember
  cases store.sets k <;> exact ⟨_, rfl⟩

theorem smembers_ok (store : StdStore) (k : String) :
    ∃ l, store.smembers k = Except.ok l := by
  unfold StdStore.smembers
  cases store.sets k <;> exact ⟨_, rfl⟩

theorem hget_ok (store : StdStore) (k f : String) :
    ∃ o, store.hget k f = Except.ok o := by
  unfold StdStore.hget
  cases store.hashes k <;> exact ⟨_, rfl⟩

theorem hset_fst_ok (store : StdStore) (k f v : String) :
    ∃ o, (store.hset k f v).1 = Except.ok o := by
  unfold StdStore.hset
  cases store.hashes k <;> exact ⟨_, rfl⟩

theorem hdel_fst_ok (store : StdStore) (k f : String) :
    ∃ n, (store.hdel k f).1 = Except.ok n := by
  unfold StdStore.hdel
  cases store.hashes k with
  | none => exact ⟨_, rfl⟩
  | some hash => cases hx : hash f <;> simp only [hx] <;> exact ⟨_, rfl⟩

/-- C9 (amended): for every request other than Quit and every store,
`execute` returns a Response: every `.unwrap()` is safe because get,
lpush, rpush, lpop, rpop, sadd, srem, sismember, smembers, hget, hset and
hdel always return Ok on `StdStore`, and the fallible incr, decr, incrby
and decrby results are matched, their errors formatted via
`f_err` as "(error) <message>".  Quit is excluded: the `execute` match in
src/ksp.rs has no arm for it (its Request enum does not even declare it). -/
theorem execute_total (req : Request) (store : StdStore) (h : req ≠ Request.Quit) :
    (execute req store).isSome = true := by
  cases req with
  | Quit => exact absurd rfl h
  | Ping => rfl
  | NoOp => rfl
  | Invalid e => rfl
  | Set key val => rfl
  | Get key =>
    obtain ⟨o, ho⟩ := get_fst_ok store key
    cases o <;> simp [execute, rustUnwrap, ho]
  | Incr key =>
    cases hx : (store.incr key).1 <;> simp [execute, hx]
  | Decr key =>
    cases hx : (store.decr key).1 <;> simp [execute, hx]
  | IncrBy key delta =>
    cases hx : (store.incrby key delta).1 <;> simp [execute, hx]
  | DecrBy key delta =>
    cases hx : (store.decrby key delta).1 <;> simp [execute, hx]
  | LPush key val =>
    obtain ⟨n, hn⟩ := lpush_fst_ok store key val
    simp [execute, rustUnwrap, hn]
  | RPush key val =>
    obtain ⟨n, hn⟩ := rpush_fst_ok store key val
    simp [execute, rustUnwrap, hn]
  | LPop key =>
    obtain ⟨o, ho⟩ := lpop_fst_ok store key
    cases o <;> simp [execute, rustUnwrap, ho]
  | RPop key =>
    obtain ⟨o, ho⟩ := rpop_fst_ok store key
    cases o <;> simp [execute, rustUnwrap, ho]
  | SAdd key val =>
    obtain ⟨n, hn⟩ := sadd_fst_ok store key val
    simp [execute, rustUnwrap, hn]
  | SRem key val =>
    obtain ⟨n, hn⟩ := srem_fst_ok store key val
    simp [execute, rustUnwrap, hn]
  | SIsMember key val =>
    obtain ⟨b, hb⟩ := sismember_ok store key val
    cases b <;> simp [execute, rustUnwrap, hb]
  | SMembers key =>
    obtain ⟨l, hl⟩ := smembers_ok store key
    cases hn : l.length <;> simp [execute, rustUnwrap, hl, hn]
  | HGet key field =>
    obtain ⟨o, ho⟩ := hget_ok store key field
    cases o <;> simp [execute, rustUnwrap, ho]
  | HSet key field val =>
    obtain ⟨o, ho⟩ := hset_fst_ok store key field val
    cases o <;> simp [execute, rustUnwrap, ho]
  | HDel key field =>
    obtain ⟨n, hn⟩ := hdel_fst_ok store key field
    simp [execute, rustUnwrap, hn]

/-- Witness for C9: execute on Ping (and on the empty store) succeeds. -/
theorem execute_total_witness : (execute Request.Ping StdStore.new).isSome = true :=
  execute_total Request.Ping StdStore.new (by decide)

/-- C9 (counterexample): `execute` cannot return a Response for Quit — the
source match has no such arm (and the Request enum declared in src/ksp.rs
has no Quit variant at all, even though src/parser.rs constructs one). -/
theorem execute_quit_none : execute Request.Quit StdStore.new = none := rfl

end Kiba
